import Mathlib

/-!
# pokego: `doSIGHUP` and `doHTTPRequest`

A shallow embedding of the two command handlers of `main.go`.

Modelling conventions.

* Go `string` values are Lean `String`s (valid UTF-8 text); `[]byte` response bodies are
  modelled by the `String` that `string(respBody)` yields.
* Go `int` / `int32` values are `Int` / `Nat`; no arithmetic in the handlers can overflow
  (the only arithmetic is `successCount++`, bounded by `len(foundPIDs)`).
* A Go `error` is `Option String`: `none` is `nil`, `some m` is an error whose `Error()` text
  is `m`.  `%w` and `%v` both print that text.
* Everything outside the program (the process table, `os.FindProcess`, `Process.Signal`, the
  HTTP transport) is an explicit oracle argument.
* Side effects are recorded, in program order, in a trace of `Event`s.  A `log.Printf` call is
  recorded as the formatted message (the logger's timestamp prefix and the trailing newline
  are not part of the model).  The deferred `resp.Body.Close()` and the reads of `p.Name()` and
  `p.Cmdline()` are not recorded.
* The flag parsing and the exit codes of `main` are not modelled: a handler returning `nil`
  is success, a handler returning an error is failure.
-/

namespace Pokego


/-! ## Effects -/

/-- Observable effects of a handler, in program order. -/
inductive Event where
  /-- One `log.Printf` call, with its formatted message. -/
  | log (line : String)
  /-- One `os.FindProcess(int(pid))` call. -/
  | findProcess (pid : Int)
  /-- One `proc.Signal(syscall.SIGHUP)` call on the handle of `pid`. -/
  | signal (pid : Int)
  /-- One `client.Do(req)` call. -/
  | httpDo (method url : String)
  deriving DecidableEq, Repr

/-- Whether the event is a log line. -/
def Event.isLog : Event → Bool
  | .log _ => true
  | _ => false

/-- The log lines of a trace, in order. -/
def logLines : List Event → List String
  | [] => []
  | .log l :: es => l :: logLines es
  | _ :: es => logLines es

/-- The process identifiers on which `os.FindProcess` was called, in order. -/
def lookups : List Event → List Int
  | [] => []
  | .findProcess pid :: es => pid :: lookups es
  | _ :: es => lookups es

/-- The process identifiers to which a signal was sent, in order. -/
def signalled : List Event → List Int
  | [] => []
  | .signal pid :: es => pid :: signalled es
  | _ :: es => signalled es

/-- The trace with its log lines removed: the system calls only. -/
def syscalls (tr : List Event) : List Event :=
  tr.filter (fun e => !e.isLog)

/-! ## Formatting (`fmt`) -/

/-- The `%v` verb applied to an `error` value: the error text, or `<nil>` for a nil error. -/
def fmtErr : Option String → String
  | none => "<nil>"
  | some m => m

/-- One lower-case hexadecimal digit (`lowerhex[n]` of `strconv`). -/
def lowerhex (n : Nat) : Char :=
  Nat.digitChar (n % 16)

/-- The function `strconv.IsPrint`.  For runes above `0xFF` Go consults Unicode tables that are
not part of this program; they are the parameter `table`. -/
def isPrint (table : Nat → Bool) (r : Nat) : Bool :=
  if r ≤ 0xFF then
    if 0x20 ≤ r && r < 0x7F then true
    else if 0xA1 ≤ r then r != 0xAD
    else false
  else table r

/-- The function `strconv.appendEscapedRune` for the double quote, with `ASCIIonly` and
`graphicOnly` both false, as used by the `%q` verb. -/
def appendEscapedRune (table : Nat → Bool) (c : Char) : String :=
  let r := c.toNat
  if r = 0x22 ∨ r = 0x5C then String.mk [Char.ofNat 0x5C, c]
  else if isPrint table r then String.mk [c]
  else if r = 0x07 then String.mk [Char.ofNat 0x5C, 'a']
  else if r = 0x08 then String.mk [Char.ofNat 0x5C, 'b']
  else if r = 0x0C then String.mk [Char.ofNat 0x5C, 'f']
  else if r = 0x0A then String.mk [Char.ofNat 0x5C, 'n']
  else if r = 0x0D then String.mk [Char.ofNat 0x5C, 'r']
  else if r = 0x09 then String.mk [Char.ofNat 0x5C, 't']
  else if r = 0x0B then String.mk [Char.ofNat 0x5C, 'v']
  else if r < 0x20 ∨ r = 0x7F then
    String.mk [Char.ofNat 0x5C, 'x', lowerhex (r / 16), lowerhex r]
  else if r < 0x10000 then
    String.mk [Char.ofNat 0x5C, 'u', lowerhex (r / 4096), lowerhex (r / 256),
      lowerhex (r / 16), lowerhex r]
  else
    String.mk [Char.ofNat 0x5C, 'U', lowerhex (r / 268435456), lowerhex (r / 16777216),
      lowerhex (r / 1048576), lowerhex (r / 65536), lowerhex (r / 4096), lowerhex (r / 256),
      lowerhex (r / 16), lowerhex r]

/-- The `%q` verb applied to a string (`strconv.Quote`): the text between double quotes, each
rune escaped by `appendEscapedRune`. -/
def goQuote (table : Nat → Bool) (s : String) : String :=
  String.mk [Char.ofNat 0x22] ++ String.join (s.data.map (appendEscapedRune table))
    ++ String.mk [Char.ofNat 0x22]

/-- A character that `%q` prints unchanged whatever the Unicode tables say: printable ASCII
other than the double quote and the backslash. -/
def plainChar (c : Char) : Bool :=
  0x20 ≤ c.toNat && c.toNat < 0x7F && c.toNat != 0x22 && c.toNat != 0x5C

/-! ## Strings (`strings`) -/

/-- Whether `sub` occurs in `s` as a contiguous block (`strings.Index(s, sub) >= 0`). -/
def listContains : List Char → List Char → Bool
  | [], sub => sub.isPrefixOf []
  | c :: s, sub => sub.isPrefixOf (c :: s) || listContains s sub

/-- The function `strings.Contains`.  On valid UTF-8 text a byte-level occurrence is the same
as a rune-level occurrence, because no UTF-8 encoding of a rune is a proper part of another. -/
def strContains (s substr : String) : Bool :=
  listContains s.data substr.data

/-! ## The process handler -/

/-- One entry of the list returned by `process.Processes()`. -/
structure Proc where
  /-- The field `p.Pid`. -/
  pid : Int
  /-- The result of `p.Name()`: the name, or the error of a failed resolution. -/
  name : Except String String
  /-- The first result of `p.Cmdline()` (its error is discarded by the program). -/
  cmdline : String

/-- The operating system as seen by `doSIGHUP`. -/
structure Host where
  /-- The result of `process.Processes()`. -/
  processes : Except String (List Proc)
  /-- The error returned by the `i`-th (from zero) `os.FindProcess` call of the run, made on
  `pid`; `none` is success. -/
  findProcess : Nat → Int → Option String
  /-- The error returned by `proc.Signal(syscall.SIGHUP)` in the `i`-th iteration of the
  delivery loop, made on `pid`; `none` is success. -/
  signal : Nat → Int → Option String
  /-- The Unicode tables behind `strconv.IsPrint`, used by `%q`. -/
  printTable : Nat → Bool

/-- The match test of the discovery loop: `name == processName || strings.Contains(...)`. -/
def nameMatches (name processName : String) : Bool :=
  name == processName || strContains name processName

/-- State of the discovery loop: the slice `foundPIDs` and the trace so far. -/
structure Found where
  foundPIDs : List Int
  trace : List Event

/-- The discovery loop `for _, p := range processes` of `doSIGHUP`. -/
def discover (processName : String) (all verbose : Bool) : List Proc → Found → Found
  | [], st => st
  | p :: ps, st =>
    match p.name with
    | .error _ => discover processName all verbose ps st
    | .ok name =>
      if nameMatches name processName then
        let st1 : Found :=
          { foundPIDs := st.foundPIDs ++ [p.pid]
            trace := st.trace ++
              (if verbose then
                [Event.log ("Found process: PID=" ++ toString p.pid ++ ", Name=" ++ name
                  ++ ", Cmdline=" ++ p.cmdline)]
              else []) }
        if !all then st1
        else discover processName all verbose ps st1
      else discover processName all verbose ps st

/-- State of the delivery loop. -/
structure Tally where
  successCount : Nat
  lastErr : Option String
  trace : List Event

/-- One iteration of the delivery loop, for the `i`-th element `pid` of `foundPIDs`. -/
def deliverStep (h : Host) (processName : String) (i : Nat) (pid : Int) (t : Tally) : Tally :=
  match h.findProcess i pid with
  | some e =>
    let lastErr := "failed to find process " ++ toString pid ++ ": " ++ e
    { t with
      lastErr := some lastErr
      trace := t.trace ++ [Event.findProcess pid, Event.log ("Warning: " ++ lastErr)] }
  | none =>
    match h.signal i pid with
    | some e =>
      let lastErr := "failed to send SIGHUP to PID " ++ toString pid ++ ": " ++ e
      { t with
        lastErr := some lastErr
        trace := t.trace ++
          [Event.findProcess pid, Event.signal pid, Event.log ("Warning: " ++ lastErr)] }
    | none =>
      { t with
        successCount := t.successCount + 1
        trace := t.trace ++
          [Event.findProcess pid, Event.signal pid,
            Event.log ("Successfully poked process " ++ processName ++ " (PID: "
              ++ toString pid ++ ") with SIGHUP")] }

/-- The delivery loop `for _, pid := range foundPIDs`, from iteration `i` on. -/
def deliver (h : Host) (processName : String) : Nat → List Int → Tally → Tally
  | _, [], t => t
  | i, pid :: rest, t => deliver h processName (i + 1) rest (deliverStep h processName i pid t)

/-- What a run of `doSIGHUP` leaves behind. -/
structure SighupRun where
  /-- The final value of the local slice `foundPIDs`. -/
  foundPIDs : List Int
  /-- The returned `error`. -/
  err : Option String
  /-- The effects of the run. -/
  trace : List Event

/-- The function `doSIGHUP`. -/
def doSIGHUP (h : Host) (processName : String) (all verbose : Bool) : SighupRun :=
  match h.processes with
  | .error e =>
    { foundPIDs := [], err := some ("failed to list processes: " ++ e), trace := [] }
  | .ok processes =>
    let found := discover processName all verbose processes { foundPIDs := [], trace := [] }
    if found.foundPIDs.length = 0 then
      { foundPIDs := found.foundPIDs
        err := some ("no process found with name " ++ goQuote h.printTable processName)
        trace := found.trace }
    else
      let t := deliver h processName 0 found.foundPIDs
        { successCount := 0, lastErr := none, trace := found.trace }
      if t.successCount = 0 then
        { foundPIDs := found.foundPIDs
          err := some ("failed to send signal to any process: " ++ fmtErr t.lastErr)
          trace := t.trace }
      else if all ∧ t.successCount < found.foundPIDs.length then
        { foundPIDs := found.foundPIDs
          err := none
          trace := t.trace ++
            [Event.log ("Warning: Only sent signal to " ++ toString t.successCount ++ " out of "
              ++ toString found.foundPIDs.length ++ " processes")] }
      else
        { foundPIDs := found.foundPIDs, err := none, trace := t.trace }

/-! ## The HTTP handler -/

/-- The value `resp` returned by `client.Do`. -/
structure Response where
  /-- The field `resp.StatusCode`. -/
  statusCode : Int
  /-- The result of `io.ReadAll(resp.Body)`: the body text, or the read error. -/
  body : Except String String

/-- The network as seen by `doHTTPRequest`. -/
structure Net where
  /-- The error of `http.NewRequest(method, url, nil)`; `none` when the URL is valid. -/
  newRequest : String → String → Option String
  /-- The result of `client.Do(req)` for the method, the URL and the client timeout (a
  `time.Duration`, in nanoseconds). -/
  roundTrip : String → String → Int → Except String Response

/-- What a run of `doHTTPRequest` leaves behind. -/
structure HttpRun where
  /-- The returned `error`. -/
  err : Option String
  /-- The effects of the run. -/
  trace : List Event

set_option linter.unusedVariables false in
/-- The function `doHTTPRequest`.  The parameter `body` is unused, as in the source: the request
is built with a nil body. -/
def doHTTPRequest (net : Net) (url method body : String) (timeout : Int) (verbose : Bool) :
    HttpRun :=
  match net.newRequest method url with
  | some e => { err := some ("failed to create request: " ++ e), trace := [] }
  | none =>
    let tr1 : List Event :=
      if verbose then [Event.log ("Sending " ++ method ++ " request to " ++ url)] else []
    let tr2 := tr1 ++ [Event.httpDo method url]
    match net.roundTrip method url timeout with
    | .error e => { err := some ("request failed: " ++ e), trace := tr2 }
    | .ok resp =>
      match resp.body with
      | .error e => { err := some ("failed to read response: " ++ e), trace := tr2 }
      | .ok respBody =>
        let tr3 := tr2 ++
          (if verbose ∧ respBody.utf8ByteSize > 0 then
            [Event.log ("Response body: " ++ respBody)]
          else [])
        if resp.statusCode ≥ 200 ∧ resp.statusCode < 300 then
          { err := none
            trace := tr3 ++ [Event.log ("Successfully poked " ++ url ++ " (status: "
              ++ toString resp.statusCode ++ ")")] }
        else
          { err := some ("server returned error status " ++ toString resp.statusCode ++ ": "
              ++ respBody)
            trace := tr3 }

/-! ## Sample environments -/

/-- A host with three processes, two of which contain `exporter` in their name; the middle
one's name does not resolve.  Every delivery succeeds. -/
def sampleHost : Host where
  processes := .ok
    [ { pid := 10, name := .ok "node-exporter", cmdline := "/bin/node-exporter" },
      { pid := 11, name := .error "gone", cmdline := "" },
      { pid := 12, name := .ok "sshd", cmdline := "/sbin/sshd" },
      { pid := 13, name := .ok "exporter", cmdline := "exporter -v" } ]
  findProcess := fun _ _ => none
  signal := fun _ _ => none
  printTable := fun _ => false

/-! ## Specification-side notions -/

/-- A process matches the target when its name resolves and equals or contains the target. -/
def Matches (processName : String) (p : Proc) : Prop :=
  ∃ n, p.name = .ok n ∧ (n = processName ∨ processName.data <:+: n.data)

/-- Executable form of `Matches`. -/
def isMatch (processName : String) (p : Proc) : Bool :=
  match p.name with
  | .ok n => nameMatches n processName
  | .error _ => false

/-- Whether a process matches is decidable, by inspection of its name. -/
instance (processName : String) : DecidablePred (Matches processName) := fun p =>
  match hp : p.name with
  | .ok n =>
    decidable_of_iff (n = processName ∨ processName.data <:+: n.data)
      ⟨fun hm => ⟨n, hp, hm⟩, fun ⟨m, hm, hc⟩ => by rw [hp] at hm; cases hm; exact hc⟩
  | .error e => isFalse (fun ⟨m, hm, _⟩ => by rw [hp] at hm; cases hm)

/-- The matching processes of a table, in enumeration order. -/
def matching (processName : String) (procs : List Proc) : List Proc :=
  procs.filter (fun p => decide (Matches processName p))

/-- The processes selected for delivery: every matching one in fan-out mode, otherwise the
first matching one only. -/
def selected (processName : String) (all : Bool) (procs : List Proc) : List Proc :=
  if all then matching processName procs else (matching processName procs).take 1

/-- The verbose log line of the discovery loop for a process. -/
def foundLine (p : Proc) : String :=
  match p.name with
  | .ok name =>
    "Found process: PID=" ++ toString p.pid ++ ", Name=" ++ name ++ ", Cmdline=" ++ p.cmdline
  | .error _ => ""

/-- The delivery to `x.2`, made in iteration `x.1`, succeeded: both the handle lookup and the
signal send returned no error. -/
def succeeded (h : Host) (x : Nat × Int) : Bool :=
  decide (h.findProcess x.1 x.2 = none ∧ h.signal x.1 x.2 = none)

/-- The error text recorded for the delivery to `x.2` made in iteration `x.1`, if it failed. -/
def failure (h : Host) (x : Nat × Int) : Option String :=
  match h.findProcess x.1 x.2 with
  | some e => some ("failed to find process " ++ toString x.2 ++ ": " ++ e)
  | none =>
    match h.signal x.1 x.2 with
    | some e => some ("failed to send SIGHUP to PID " ++ toString x.2 ++ ": " ++ e)
    | none => none

/-- The events of one iteration of the delivery loop. -/
def attemptEvents (h : Host) (processName : String) (i : Nat) (pid : Int) : List Event :=
  (deliverStep h processName i pid { successCount := 0, lastErr := none, trace := [] }).trace

/-- The events of the delivery loop over `pids`, from iteration `i` on. -/
def deliveryTrace (h : Host) (processName : String) : Nat → List Int → List Event
  | _, [] => []
  | i, pid :: rest => attemptEvents h processName i pid ++ deliveryTrace h processName (i + 1) rest

/-- The identifiers of the selected processes. -/
def selectedPIDs (processName : String) (all : Bool) (procs : List Proc) : List Int :=
  (selected processName all procs).map Proc.pid

/-- The trace of the discovery loop: one line per selected process when verbose. -/
def discoveryTrace (processName : String) (all verbose : Bool) (procs : List Proc) :
    List Event :=
  if verbose then (selected processName all procs).map (fun p => Event.log (foundLine p))
  else []

/-- The number of successful deliveries over `pids`. -/
def successes (h : Host) (pids : List Int) : Nat :=
  (pids.enum.filter (succeeded h)).length

/-- A log line is a per-process delivery warning. -/
def isFailureWarning (line : String) : Bool :=
  "Warning: failed to ".data.isPrefixOf line.data

/-- A log line is the partial fan-out warning. -/
def isPartialWarning (line : String) : Bool :=
  "Warning: Only sent signal to ".data.isPrefixOf line.data

/-- The sample table, where the signal is refused for process 10 and accepted for the
others. -/
def partialHost : Host :=
  { sampleHost with
    signal := fun _ pid => if pid = 10 then some "operation not permitted" else none }

/-- The sample table, where the handle lookup fails for process 10 and every signal is
refused. -/
def failingHost : Host :=
  { sampleHost with
    findProcess := fun _ pid => if pid = 10 then some "no such process" else none
    signal := fun _ _ => some "operation not permitted" }

/-- A network on which every URL is valid and every request is answered with the given status
code and the given result of reading the body. -/
def sampleNet (status : Int) (body : Except String String) : Net where
  newRequest := fun _ _ => none
  roundTrip := fun _ _ _ => .ok { statusCode := status, body := body }

/-! ## Matching -/

theorem listContains_iff (s sub : List Char) : listContains s sub = true ↔ sub <:+: s := by
  induction s with
  | nil =>
    cases sub <;> simp [listContains, List.isPrefixOf]
  | cons c s ih =>
    rw [listContains, Bool.or_eq_true, ih, List.isPrefixOf_iff_prefix, List.infix_cons_iff]

theorem nameMatches_iff (name processName : String) :
    nameMatches name processName = true ↔
      (name = processName ∨ processName.data <:+: name.data) := by
  simp [nameMatches, strContains, listContains_iff]

theorem isMatch_iff (processName : String) (p : Proc) :
    isMatch processName p = true ↔ Matches processName p := by
  unfold isMatch Matches
  cases hp : p.name with
  | error e => simp
  | ok n => simp [nameMatches_iff]

/-! ## The discovery loop -/

theorem matching_cons_of_matches {processName : String} {p : Proc} (ps : List Proc)
    (hp : Matches processName p) :
    matching processName (p :: ps) = p :: matching processName ps := by
  simp [matching, hp]

theorem matching_cons_of_not_matches {processName : String} {p : Proc} (ps : List Proc)
    (hp : ¬ Matches processName p) :
    matching processName (p :: ps) = matching processName ps := by
  simp [matching, hp]

theorem not_matches_of_error {processName : String} {p : Proc} {e : String}
    (hp : p.name = .error e) : ¬ Matches processName p := by
  rintro ⟨n, hn, -⟩
  rw [hp] at hn
  cases hn

theorem matches_ok_iff {processName : String} {p : Proc} {n : String} (hp : p.name = .ok n) :
    Matches processName p ↔ nameMatches n processName = true := by
  rw [← isMatch_iff, isMatch, hp]

theorem discover_eq (processName : String) (all verbose : Bool) (procs : List Proc)
    (st : Found) :
    discover processName all verbose procs st =
      { foundPIDs := st.foundPIDs ++ (selected processName all procs).map Proc.pid
        trace := st.trace ++
          (if verbose then
            (selected processName all procs).map (fun p => Event.log (foundLine p))
          else []) } := by
  induction procs generalizing st with
  | nil => cases all <;> cases verbose <;> simp [discover, selected, matching]
  | cons p ps ih =>
    rw [discover]
    cases hp : p.name with
    | error e =>
      have hm : ¬ Matches processName p := not_matches_of_error hp
      simp only [ih, selected, matching_cons_of_not_matches ps hm]
    | ok n =>
      by_cases hn : nameMatches n processName = true
      · have hm : Matches processName p := (matches_ok_iff hp).2 hn
        cases all <;> cases verbose <;>
          simp [ih, hn, selected, matching_cons_of_matches ps hm, foundLine, hp]
      · have hm : ¬ Matches processName p := fun h => hn ((matches_ok_iff hp).1 h)
        simp only [hn, ih, selected, matching_cons_of_not_matches ps hm]
        simp

/-! ## The delivery loop -/

theorem deliverStep_trace (h : Host) (processName : String) (i : Nat) (pid : Int) (t : Tally) :
    (deliverStep h processName i pid t).trace = t.trace ++ attemptEvents h processName i pid := by
  unfold attemptEvents deliverStep
  cases h.findProcess i pid <;> cases h.signal i pid <;> simp

theorem deliverStep_successCount (h : Host) (processName : String) (i : Nat) (pid : Int)
    (t : Tally) :
    (deliverStep h processName i pid t).successCount =
      t.successCount + (if succeeded h (i, pid) then 1 else 0) := by
  unfold deliverStep succeeded
  cases h.findProcess i pid <;> cases h.signal i pid <;> simp

theorem deliverStep_lastErr (h : Host) (processName : String) (i : Nat) (pid : Int)
    (t : Tally) :
    (deliverStep h processName i pid t).lastErr = (failure h (i, pid)).or t.lastErr := by
  unfold deliverStep failure
  cases h.findProcess i pid <;> cases h.signal i pid <;> simp [Option.or]

theorem deliver_append (h : Host) (processName : String) (i : Nat) (a b : List Int)
    (t : Tally) :
    deliver h processName i (a ++ b) t =
      deliver h processName (i + a.length) b (deliver h processName i a t) := by
  induction a generalizing i t with
  | nil => simp [deliver]
  | cons pid a ih =>
    have hi : i + 1 + a.length = i + (a.length + 1) := by omega
    rw [List.cons_append, deliver, deliver, ih, List.length_cons, hi]

theorem deliver_trace (h : Host) (processName : String) (i : Nat) (pids : List Int)
    (t : Tally) :
    (deliver h processName i pids t).trace = t.trace ++ deliveryTrace h processName i pids := by
  induction pids generalizing i t with
  | nil => simp [deliver, deliveryTrace]
  | cons pid rest ih =>
    simp [deliver, deliveryTrace, ih, deliverStep_trace]

theorem deliver_successCount (h : Host) (processName : String) (i : Nat) (pids : List Int)
    (t : Tally) :
    (deliver h processName i pids t).successCount =
      t.successCount + ((pids.enumFrom i).filter (succeeded h)).length := by
  induction pids generalizing i t with
  | nil => simp [deliver]
  | cons pid rest ih =>
    simp only [deliver, ih, deliverStep_successCount, List.enumFrom_cons, List.filter_cons]
    cases succeeded h (i, pid)
    · simp
    · simp
      omega

theorem deliver_lastErr_snoc (h : Host) (processName : String) (i : Nat) (init : List Int)
    (pid : Int) (t : Tally) :
    (deliver h processName i (init ++ [pid]) t).lastErr =
      (failure h (i + init.length, pid)).or (deliver h processName i init t).lastErr := by
  rw [deliver_append]
  simp [deliver, deliverStep_lastErr]

/-- The tally of the delivery loop does not depend on the trace it starts from. -/
theorem deliver_tally_indep (h : Host) (processName : String) (i : Nat) (pids : List Int)
    (c : Nat) (e : Option String) (tr tr' : List Event) :
    (deliver h processName i pids { successCount := c, lastErr := e, trace := tr }).successCount
        = (deliver h processName i pids
            { successCount := c, lastErr := e, trace := tr' }).successCount ∧
      (deliver h processName i pids { successCount := c, lastErr := e, trace := tr }).lastErr
        = (deliver h processName i pids
            { successCount := c, lastErr := e, trace := tr' }).lastErr := by
  induction pids generalizing i c e tr tr' with
  | nil => simp [deliver]
  | cons pid rest ih =>
    simp only [deliver]
    unfold deliverStep
    cases h.findProcess i pid <;> cases h.signal i pid <;> exact ih _ _ _ _ _

/-! ## Quoting -/

theorem isPrint_of_plain (table : Nat → Bool) (c : Char) (hc : plainChar c = true) :
    isPrint table c.toNat = true := by
  simp only [plainChar, Bool.and_eq_true, decide_eq_true_eq] at hc
  obtain ⟨⟨⟨h1, h2⟩, -⟩, -⟩ := hc
  have h3 : c.toNat ≤ 0xFF := by omega
  simp [isPrint, h1, h2, h3]

theorem appendEscapedRune_plain (table : Nat → Bool) (c : Char) (hc : plainChar c = true) :
    appendEscapedRune table c = String.mk [c] := by
  have hp := isPrint_of_plain table c hc
  simp only [plainChar, Bool.and_eq_true, decide_eq_true_eq, bne_iff_ne, ne_eq] at hc
  obtain ⟨⟨-, h1⟩, h2⟩ := hc
  simp [appendEscapedRune, h1, h2, hp]

theorem flatten_map_plain (table : Nat → Bool) (l : List Char)
    (hl : ∀ c ∈ l, plainChar c = true) :
    ((l.map (appendEscapedRune table)).map String.data).flatten = l := by
  induction l with
  | nil => rfl
  | cons c l ih =>
    have hc := appendEscapedRune_plain table c (hl c (List.mem_cons_self c l))
    have hr := ih (fun d hd => hl d (List.mem_cons_of_mem c hd))
    rw [List.map_cons, List.map_cons, List.flatten_cons, hr, hc]
    rfl

/-- On a name made of plain characters `%q` only adds the surrounding double quotes. -/
theorem goQuote_plain (table : Nat → Bool) (s : String)
    (hs : ∀ c ∈ s.data, plainChar c = true) :
    goQuote table s = "\"" ++ s ++ "\"" := by
  unfold goQuote
  rw [String.join_eq, flatten_map_plain table s.data hs]

/-! ## Normal form of a run of `doSIGHUP` -/

theorem selectedPIDs_def (processName : String) (all : Bool) (procs : List Proc) :
    selectedPIDs processName all procs = (selected processName all procs).map Proc.pid := rfl

theorem discoveryTrace_def (processName : String) (all verbose : Bool) (procs : List Proc) :
    discoveryTrace processName all verbose procs =
      (if verbose then (selected processName all procs).map (fun p => Event.log (foundLine p))
      else []) := rfl

theorem doSIGHUP_eq (h : Host) (processName : String) (all verbose : Bool)
    (procs : List Proc) (hlist : h.processes = .ok procs) :
    doSIGHUP h processName all verbose =
      if selectedPIDs processName all procs = [] then
        { foundPIDs := []
          err := some ("no process found with name " ++ goQuote h.printTable processName)
          trace := discoveryTrace processName all verbose procs }
      else if successes h (selectedPIDs processName all procs) = 0 then
        { foundPIDs := selectedPIDs processName all procs
          err := some ("failed to send signal to any process: " ++
            fmtErr (deliver h processName 0 (selectedPIDs processName all procs)
              { successCount := 0, lastErr := none, trace := [] }).lastErr)
          trace := discoveryTrace processName all verbose procs ++
            deliveryTrace h processName 0 (selectedPIDs processName all procs) }
      else if all = true ∧
          successes h (selectedPIDs processName all procs)
            < (selectedPIDs processName all procs).length then
        { foundPIDs := selectedPIDs processName all procs
          err := none
          trace := discoveryTrace processName all verbose procs ++
            deliveryTrace h processName 0 (selectedPIDs processName all procs) ++
            [Event.log ("Warning: Only sent signal to "
              ++ toString (successes h (selectedPIDs processName all procs)) ++ " out of "
              ++ toString (selectedPIDs processName all procs).length ++ " processes")] }
      else
        { foundPIDs := selectedPIDs processName all procs
          err := none
          trace := discoveryTrace processName all verbose procs ++
            deliveryTrace h processName 0 (selectedPIDs processName all procs) } := by
  have hc := deliver_successCount h processName 0 (selectedPIDs processName all procs)
    { successCount := 0, lastErr := none, trace := discoveryTrace processName all verbose procs }
  have hi := (deliver_tally_indep h processName 0 (selectedPIDs processName all procs) 0 none
    (discoveryTrace processName all verbose procs) []).2
  have ht := deliver_trace h processName 0 (selectedPIDs processName all procs)
    { successCount := 0, lastErr := none, trace := discoveryTrace processName all verbose procs }
  simp only [Nat.zero_add] at hc
  unfold doSIGHUP
  simp only [hlist, discover_eq, List.nil_append]
  simp only [← selectedPIDs_def, ← discoveryTrace_def, List.length_eq_zero]
  rw [hc, hi, ht]
  by_cases h0 : selectedPIDs processName all procs = []
  · simp only [h0, if_true]
  · simp only [h0, if_false]
    rfl

/-! ## Discovery: the claims -/

theorem selected_eq_nil_of_no_match {processName : String} {procs : List Proc} (all : Bool)
    (hno : ∀ p ∈ procs, ¬ Matches processName p) : selected processName all procs = [] := by
  have hm : matching processName procs = [] := by
    simp only [matching, List.filter_eq_nil_iff, decide_eq_true_eq]
    exact hno
  cases all <;> simp [selected, hm]

/-- **C1.** When the process table is listed and no process with a resolvable name has a name
equal to or containing the target, `doSIGHUP` returns, for both values of `all` and of
`verbose`, the error `no process found with name %q` of the target (the target between double
quotes when it is made of plain characters), and its trace is empty: no handle lookup and no
signal send is attempted on any process. -/
theorem doSIGHUP_no_match (h : Host) (processName : String) (all verbose : Bool)
    (procs : List Proc) (hlist : h.processes = .ok procs)
    (hno : ∀ p ∈ procs, ¬ Matches processName p) :
    (doSIGHUP h processName all verbose).err
        = some ("no process found with name " ++ goQuote h.printTable processName) ∧
      ((∀ c ∈ processName.data, plainChar c = true) →
        (doSIGHUP h processName all verbose).err
          = some ("no process found with name \"" ++ processName ++ "\"")) ∧
      (doSIGHUP h processName all verbose).trace = [] ∧
      lookups (doSIGHUP h processName all verbose).trace = [] ∧
      signalled (doSIGHUP h processName all verbose).trace = [] := by
  have hs := selected_eq_nil_of_no_match all hno
  have hrun : doSIGHUP h processName all verbose =
      { foundPIDs := []
        err := some ("no process found with name " ++ goQuote h.printTable processName)
        trace := [] } := by
    rw [doSIGHUP_eq h processName all verbose procs hlist]
    simp [selectedPIDs, discoveryTrace, hs]
  rw [hrun]
  refine ⟨rfl, ?_, rfl, rfl, rfl⟩
  intro hp
  rw [goQuote_plain _ _ hp, ← String.append_assoc, ← String.append_assoc]
  rfl

/-- Scenario B of the specification: no process named `myapp` runs. -/
theorem doSIGHUP_no_match_witness :
    (doSIGHUP sampleHost "myapp" false false).err
        = some "no process found with name \"myapp\"" ∧
      (doSIGHUP sampleHost "myapp" true true).trace = [] :=
  ⟨(doSIGHUP_no_match sampleHost "myapp" false false _ rfl (by decide)).2.1 (by decide),
    (doSIGHUP_no_match sampleHost "myapp" true true _ rfl (by decide)).2.2.1⟩

/-- **C2.** When the process table is listed, the match set `foundPIDs` built by `doSIGHUP` is:
in fan-out mode, the identifiers of exactly the processes whose name resolves and equals or
contains the target, in enumeration order; otherwise the first of these identifiers alone (or
nothing when there is none). -/
theorem doSIGHUP_foundPIDs (h : Host) (processName : String) (all verbose : Bool)
    (procs : List Proc) (hlist : h.processes = .ok procs) :
    (doSIGHUP h processName all verbose).foundPIDs =
      if all then (procs.filter (fun p => decide (Matches processName p))).map Proc.pid
      else ((procs.filter (fun p => decide (Matches processName p))).map Proc.pid).take 1 := by
  have hf : (doSIGHUP h processName all verbose).foundPIDs
      = selectedPIDs processName all procs := by
    rw [doSIGHUP_eq h processName all verbose procs hlist]
    by_cases h0 : selectedPIDs processName all procs = []
    · simp [h0]
    · simp only [h0, if_false]
      split_ifs <;> rfl
  rw [hf]
  cases all <;> simp [selectedPIDs, selected, matching, List.map_take]

/-- The sample host: the process whose name does not resolve is skipped, and first-match mode
keeps the first match only. -/
theorem doSIGHUP_foundPIDs_witness :
    (doSIGHUP sampleHost "exporter" true false).foundPIDs = [10, 13] ∧
      (doSIGHUP sampleHost "exporter" false false).foundPIDs = [10] :=
  ⟨(doSIGHUP_foundPIDs sampleHost "exporter" true false _ rfl).trans (by decide),
    (doSIGHUP_foundPIDs sampleHost "exporter" false false _ rfl).trans (by decide)⟩

/-! ## Projections of a trace -/

theorem lookups_append (a b : List Event) : lookups (a ++ b) = lookups a ++ lookups b := by
  induction a with
  | nil => rfl
  | cons e a ih => cases e <;> simp [lookups, ih]

theorem signalled_append (a b : List Event) :
    signalled (a ++ b) = signalled a ++ signalled b := by
  induction a with
  | nil => rfl
  | cons e a ih => cases e <;> simp [signalled, ih]

theorem logLines_append (a b : List Event) : logLines (a ++ b) = logLines a ++ logLines b := by
  induction a with
  | nil => rfl
  | cons e a ih => cases e <;> simp [logLines, ih]

theorem syscalls_append (a b : List Event) : syscalls (a ++ b) = syscalls a ++ syscalls b := by
  simp [syscalls]

theorem lookups_syscalls (tr : List Event) : lookups (syscalls tr) = lookups tr := by
  induction tr with
  | nil => rfl
  | cons e tr ih =>
    cases e <;> simp [syscalls, Event.isLog, lookups] <;> simpa [syscalls] using ih

theorem signalled_syscalls (tr : List Event) : signalled (syscalls tr) = signalled tr := by
  induction tr with
  | nil => rfl
  | cons e tr ih =>
    cases e <;> simp [syscalls, Event.isLog, signalled] <;> simpa [syscalls] using ih

theorem syscalls_map_log {α : Type} (f : α → String) (l : List α) :
    syscalls (l.map (fun a => Event.log (f a))) = [] := by
  simp [syscalls, Event.isLog]

theorem logLines_map_log {α : Type} (f : α → String) (l : List α) :
    logLines (l.map (fun a => Event.log (f a))) = l.map f := by
  induction l with
  | nil => rfl
  | cons a l ih => simp [logLines, ih]

theorem syscalls_discoveryTrace (processName : String) (all verbose : Bool)
    (procs : List Proc) : syscalls (discoveryTrace processName all verbose procs) = [] := by
  unfold discoveryTrace
  cases verbose
  · rfl
  · exact syscalls_map_log foundLine _

theorem logLines_discoveryTrace (processName : String) (all verbose : Bool)
    (procs : List Proc) :
    logLines (discoveryTrace processName all verbose procs) =
      if verbose then (selected processName all procs).map foundLine else [] := by
  unfold discoveryTrace
  cases verbose
  · rfl
  · exact logLines_map_log foundLine _

/-- The system calls of a run, whatever `verbose` is. -/
theorem syscalls_doSIGHUP (h : Host) (processName : String) (all verbose : Bool)
    (procs : List Proc) (hlist : h.processes = .ok procs) :
    syscalls (doSIGHUP h processName all verbose).trace =
      syscalls (deliveryTrace h processName 0 (selectedPIDs processName all procs)) := by
  rw [doSIGHUP_eq h processName all verbose procs hlist]
  by_cases h0 : selectedPIDs processName all procs = []
  · rw [if_pos h0, h0]
    exact syscalls_discoveryTrace processName all verbose procs
  · simp only [h0, if_false]
    split_ifs
    · simp only [syscalls_append, syscalls_discoveryTrace, List.nil_append]
    · simp only [syscalls_append, syscalls_discoveryTrace, List.nil_append]
      simp [syscalls, Event.isLog]
    · simp only [syscalls_append, syscalls_discoveryTrace, List.nil_append]

theorem err_doSIGHUP_verbose (h : Host) (processName : String) (all : Bool) :
    (doSIGHUP h processName all true).err = (doSIGHUP h processName all false).err ∧
      (doSIGHUP h processName all true).foundPIDs
        = (doSIGHUP h processName all false).foundPIDs := by
  cases hlist : h.processes with
  | error e => simp [doSIGHUP, hlist]
  | ok procs =>
    rw [doSIGHUP_eq h processName all true procs hlist,
      doSIGHUP_eq h processName all false procs hlist]
    by_cases h0 : selectedPIDs processName all procs = []
    · simp [h0]
    · simp only [h0, if_false]
      split_ifs <;> exact ⟨rfl, rfl⟩

/-- **C10.** The `verbose` flag of `doSIGHUP` affects only the log: with and without it the
match set, the returned error, the sequence of system calls (hence the handle lookups and
the processes signalled, in order) are the same. -/
theorem doSIGHUP_verbose_only_log (h : Host) (processName : String) (all : Bool) :
    (doSIGHUP h processName all true).foundPIDs
        = (doSIGHUP h processName all false).foundPIDs ∧
      (doSIGHUP h processName all true).err = (doSIGHUP h processName all false).err ∧
      syscalls (doSIGHUP h processName all true).trace
        = syscalls (doSIGHUP h processName all false).trace ∧
      lookups (doSIGHUP h processName all true).trace
        = lookups (doSIGHUP h processName all false).trace ∧
      signalled (doSIGHUP h processName all true).trace
        = signalled (doSIGHUP h processName all false).trace := by
  have hsys : syscalls (doSIGHUP h processName all true).trace
      = syscalls (doSIGHUP h processName all false).trace := by
    cases hlist : h.processes with
    | error e => simp [doSIGHUP, hlist]
    | ok procs =>
      rw [syscalls_doSIGHUP h processName all true procs hlist,
        syscalls_doSIGHUP h processName all false procs hlist]
  have he := err_doSIGHUP_verbose h processName all
  refine ⟨he.2, he.1, hsys, ?_, ?_⟩
  · rw [← lookups_syscalls, hsys, lookups_syscalls]
  · rw [← signalled_syscalls, hsys, signalled_syscalls]

/-! ## Delivery: the trace of the loop -/

theorem lookups_attemptEvents (h : Host) (processName : String) (i : Nat) (pid : Int) :
    lookups (attemptEvents h processName i pid) = [pid] := by
  unfold attemptEvents deliverStep
  cases h.findProcess i pid <;> cases h.signal i pid <;> rfl

theorem signalled_attemptEvents (h : Host) (processName : String) (i : Nat) (pid : Int) :
    signalled (attemptEvents h processName i pid) =
      if h.findProcess i pid = none then [pid] else [] := by
  unfold attemptEvents deliverStep
  cases h.findProcess i pid <;> cases h.signal i pid <;> rfl

theorem warnings_attemptEvents (h : Host) (processName : String) (i : Nat) (pid : Int) :
    (logLines (attemptEvents h processName i pid)).filter isFailureWarning =
      ((failure h (i, pid)).map (fun m => "Warning: " ++ m)).toList := by
  unfold attemptEvents deliverStep failure
  cases h.findProcess i pid <;> cases h.signal i pid <;>
    simp [logLines, isFailureWarning, String.data_append, List.isPrefixOf]

theorem not_partial_attemptEvents (h : Host) (processName : String) (i : Nat) (pid : Int) :
    ∀ line ∈ logLines (attemptEvents h processName i pid), isPartialWarning line = false := by
  unfold attemptEvents deliverStep
  cases h.findProcess i pid <;> cases h.signal i pid <;>
    simp [logLines, isPartialWarning, String.data_append, List.isPrefixOf]

theorem lookups_deliveryTrace (h : Host) (processName : String) (i : Nat) (pids : List Int) :
    lookups (deliveryTrace h processName i pids) = pids := by
  induction pids generalizing i with
  | nil => rfl
  | cons pid rest ih => simp [deliveryTrace, lookups_append, lookups_attemptEvents, ih]

theorem signalled_deliveryTrace (h : Host) (processName : String) (i : Nat)
    (pids : List Int) :
    signalled (deliveryTrace h processName i pids) =
      ((pids.enumFrom i).filter (fun x => decide (h.findProcess x.1 x.2 = none))).map
        Prod.snd := by
  induction pids generalizing i with
  | nil => rfl
  | cons pid rest ih =>
    simp only [deliveryTrace, signalled_append, signalled_attemptEvents, ih, List.enumFrom_cons,
      List.filter_cons]
    by_cases hf : h.findProcess i pid = none <;> simp [hf]

theorem warnings_deliveryTrace (h : Host) (processName : String) (i : Nat) (pids : List Int) :
    (logLines (deliveryTrace h processName i pids)).filter isFailureWarning =
      ((pids.enumFrom i).filterMap (failure h)).map (fun m => "Warning: " ++ m) := by
  induction pids generalizing i with
  | nil => rfl
  | cons pid rest ih =>
    simp only [deliveryTrace, logLines_append, List.filter_append, warnings_attemptEvents, ih,
      List.enumFrom_cons, List.filterMap_cons]
    cases failure h (i, pid) <;> simp

theorem not_partial_deliveryTrace (h : Host) (processName : String) (i : Nat)
    (pids : List Int) :
    ∀ line ∈ logLines (deliveryTrace h processName i pids), isPartialWarning line = false := by
  induction pids generalizing i with
  | nil => simp [deliveryTrace, logLines]
  | cons pid rest ih =>
    intro line hl
    rw [deliveryTrace, logLines_append, List.mem_append] at hl
    rcases hl with hl | hl
    · exact not_partial_attemptEvents h processName i pid line hl
    · exact ih (i + 1) line hl

theorem foundLine_not_warning (p : Proc) :
    isFailureWarning (foundLine p) = false ∧ isPartialWarning (foundLine p) = false := by
  unfold foundLine
  cases p.name <;>
    simp [isFailureWarning, isPartialWarning, String.data_append, List.isPrefixOf]

theorem warnings_discoveryTrace (processName : String) (all verbose : Bool)
    (procs : List Proc) :
    (logLines (discoveryTrace processName all verbose procs)).filter isFailureWarning = [] := by
  rw [logLines_discoveryTrace, List.filter_eq_nil_iff]
  intro line hl
  cases verbose
  · simp at hl
  · simp only [if_true, List.mem_map] at hl
    obtain ⟨p, -, rfl⟩ := hl
    simp [(foundLine_not_warning p).1]

theorem not_partial_discoveryTrace (processName : String) (all verbose : Bool)
    (procs : List Proc) :
    ∀ line ∈ logLines (discoveryTrace processName all verbose procs),
      isPartialWarning line = false := by
  rw [logLines_discoveryTrace]
  intro line hl
  cases verbose
  · simp at hl
  · simp only [if_true, List.mem_map] at hl
    obtain ⟨p, -, rfl⟩ := hl
    exact (foundLine_not_warning p).2

theorem foundPIDs_doSIGHUP (h : Host) (processName : String) (all verbose : Bool)
    (procs : List Proc) (hlist : h.processes = .ok procs) :
    (doSIGHUP h processName all verbose).foundPIDs = selectedPIDs processName all procs := by
  rw [doSIGHUP_eq h processName all verbose procs hlist]
  by_cases h0 : selectedPIDs processName all procs = []
  · simp [h0]
  · simp only [h0, if_false]
    split_ifs <;> rfl

/-- **C4.** The delivery loop of `doSIGHUP` looks up a handle for every process of the match
set exactly once, in match-set order, whatever the outcome of the individual deliveries; it
sends the signal to exactly those whose lookup succeeded, so that a failure does not stop the
deliveries after it; and the per-process warning lines of the log are, in order, exactly one
line `Warning: <failure>` for each failed delivery. -/
theorem doSIGHUP_delivers_to_all (h : Host) (processName : String) (all verbose : Bool) :
    lookups (doSIGHUP h processName all verbose).trace
        = (doSIGHUP h processName all verbose).foundPIDs ∧
      signalled (doSIGHUP h processName all verbose).trace
        = (((doSIGHUP h processName all verbose).foundPIDs.enum).filter
            (fun x => decide (h.findProcess x.1 x.2 = none))).map Prod.snd ∧
      (logLines (doSIGHUP h processName all verbose).trace).filter isFailureWarning
        = (((doSIGHUP h processName all verbose).foundPIDs.enum).filterMap (failure h)).map
            (fun m => "Warning: " ++ m) := by
  cases hlist : h.processes with
  | error e => simp [doSIGHUP, hlist, lookups, signalled, logLines]
  | ok procs =>
    have hsys := syscalls_doSIGHUP h processName all verbose procs hlist
    rw [foundPIDs_doSIGHUP h processName all verbose procs hlist]
    refine ⟨?_, ?_, ?_⟩
    · rw [← lookups_syscalls, hsys, lookups_syscalls, lookups_deliveryTrace]
    · rw [← signalled_syscalls, hsys, signalled_syscalls, signalled_deliveryTrace]
      rfl
    · rw [doSIGHUP_eq h processName all verbose procs hlist]
      by_cases h0 : selectedPIDs processName all procs = []
      · rw [if_pos h0, h0]
        exact warnings_discoveryTrace processName all verbose procs
      · simp only [h0, if_false]
        split_ifs
        · simp only [logLines_append, List.filter_append, warnings_discoveryTrace,
            warnings_deliveryTrace, List.nil_append]
          rfl
        · simp only [logLines_append, List.filter_append, warnings_discoveryTrace,
            warnings_deliveryTrace, List.nil_append]
          simp [logLines, isFailureWarning, String.data_append, List.isPrefixOf]
          rfl
        · simp only [logLines_append, List.filter_append, warnings_discoveryTrace,
            warnings_deliveryTrace, List.nil_append]
          rfl

/-! ## Aggregation: the claims -/

theorem successes_eq_zero_iff (h : Host) (pids : List Int) :
    successes h pids = 0 ↔
      ∀ x ∈ pids.enum, ¬ (h.findProcess x.1 x.2 = none ∧ h.signal x.1 x.2 = none) := by
  simp [successes, succeeded, List.length_eq_zero]

theorem err_doSIGHUP_eq_none_iff (h : Host) (processName : String) (all verbose : Bool)
    (procs : List Proc) (hlist : h.processes = .ok procs) :
    (doSIGHUP h processName all verbose).err = none ↔
      successes h (selectedPIDs processName all procs) ≠ 0 := by
  rw [doSIGHUP_eq h processName all verbose procs hlist]
  by_cases h0 : selectedPIDs processName all procs = []
  · simp [h0, successes]
  · simp only [h0, if_false]
    split_ifs with h1 h2
    · simp [h1]
    · simp [h1]
    · simp [h1]

/-- **C3.** On a process table with exactly one process whose name resolves and equals or
contains the target, first-match mode and fan-out mode run identically: the same match set,
the same returned error, and the same trace (the same handle lookups, signals and log lines,
in the same order), whatever the delivery outcome. -/
theorem doSIGHUP_one_match (h : Host) (processName : String) (verbose : Bool)
    (procs : List Proc) (hlist : h.processes = .ok procs)
    (hone : (procs.filter (fun p => decide (Matches processName p))).length = 1) :
    doSIGHUP h processName false verbose = doSIGHUP h processName true verbose := by
  have hsel : selected processName false procs = selected processName true procs := by
    simp only [selected, matching, if_true, Bool.false_eq_true, if_false]
    exact List.take_of_length_le (le_of_eq hone)
  have hp : selectedPIDs processName false procs = selectedPIDs processName true procs := by
    simp only [selectedPIDs, hsel]
  have hd : discoveryTrace processName false verbose procs
      = discoveryTrace processName true verbose procs := by
    simp only [discoveryTrace, hsel]
  have hlen : (selectedPIDs processName true procs).length = 1 := by
    simp only [selectedPIDs, selected, matching, if_true, List.length_map]
    exact hone
  rw [doSIGHUP_eq h processName false verbose procs hlist,
    doSIGHUP_eq h processName true verbose procs hlist, hp, hd]
  by_cases h0 : selectedPIDs processName true procs = []
  · simp only [h0, if_true]
  · simp only [h0, if_false]
    by_cases h1 : successes h (selectedPIDs processName true procs) = 0
    · simp only [h1, if_true]
    · have h2 : ¬ (successes h (selectedPIDs processName true procs)
          < (selectedPIDs processName true procs).length) := by
        rw [hlen]
        omega
      simp [h1, h2]

/-- On the sample host exactly one process name contains `sshd`. -/
theorem doSIGHUP_one_match_witness :
    doSIGHUP sampleHost "sshd" false true = doSIGHUP sampleHost "sshd" true true :=
  doSIGHUP_one_match sampleHost "sshd" true _ rfl (by decide)

/-- **C5.** On a listed process table with `N` matching processes, `doSIGHUP` returns no
error if and only if at least one delivery of the run succeeded.  With `k` the number of
successful deliveries: in fan-out mode with `0 < k < N` the run returns no error and its last
log line is `Warning: Only sent signal to k out of N processes`; in every other case (in
particular when `k = N` or when `all` is false) no log line of the run starts with
`Warning: Only sent signal to `. -/
theorem doSIGHUP_success_iff (h : Host) (processName : String) (all verbose : Bool)
    (procs : List Proc) (hlist : h.processes = .ok procs) :
    ((doSIGHUP h processName all verbose).err = none ↔
        ∃ x ∈ (doSIGHUP h processName all verbose).foundPIDs.enum,
          h.findProcess x.1 x.2 = none ∧ h.signal x.1 x.2 = none) ∧
      (all = true →
        0 < successes h (doSIGHUP h processName all verbose).foundPIDs →
        successes h (doSIGHUP h processName all verbose).foundPIDs
          < (procs.filter (fun p => decide (Matches processName p))).length →
        (doSIGHUP h processName all verbose).err = none ∧
          (doSIGHUP h processName all verbose).trace.getLast? =
            some (Event.log ("Warning: Only sent signal to "
              ++ toString (successes h (doSIGHUP h processName all verbose).foundPIDs)
              ++ " out of "
              ++ toString (procs.filter (fun p => decide (Matches processName p))).length
              ++ " processes"))) ∧
      (¬ (all = true ∧ 0 < successes h (doSIGHUP h processName all verbose).foundPIDs ∧
          successes h (doSIGHUP h processName all verbose).foundPIDs
            < (procs.filter (fun p => decide (Matches processName p))).length) →
        ∀ line ∈ logLines (doSIGHUP h processName all verbose).trace,
          ¬ "Warning: Only sent signal to ".data <+: line.data) := by
  have hf := foundPIDs_doSIGHUP h processName all verbose procs hlist
  have he := err_doSIGHUP_eq_none_iff h processName all verbose procs hlist
  have hlen : all = true → (selectedPIDs processName all procs).length
      = (procs.filter (fun p => decide (Matches processName p))).length := by
    rintro rfl
    simp [selectedPIDs, selected, matching]
  rw [hf]
  refine ⟨?_, ?_, ?_⟩
  · rw [he, Ne, successes_eq_zero_iff]
    push_neg
    rfl
  · intro ha hk hk2
    refine ⟨he.2 (by omega), ?_⟩
    rw [doSIGHUP_eq h processName all verbose procs hlist]
    have h0 : selectedPIDs processName all procs ≠ [] := by
      intro h0
      rw [h0] at hk
      simp [successes] at hk
    have h1 : successes h (selectedPIDs processName all procs) ≠ 0 := by omega
    have h2 : all = true ∧ successes h (selectedPIDs processName all procs)
        < (selectedPIDs processName all procs).length := ⟨ha, by rw [hlen ha]; exact hk2⟩
    rw [if_neg h0, if_neg h1, if_pos h2, List.getLast?_concat, hlen ha]
  · intro hnot line hl
    rw [← List.isPrefixOf_iff_prefix]
    change ¬ (isPartialWarning line = true)
    rw [Bool.not_eq_true]
    rw [doSIGHUP_eq h processName all verbose procs hlist] at hl
    have hbase : ∀ l ∈ logLines (discoveryTrace processName all verbose procs ++
        deliveryTrace h processName 0 (selectedPIDs processName all procs)),
        isPartialWarning l = false := by
      intro l hl
      rw [logLines_append, List.mem_append] at hl
      rcases hl with hl | hl
      · exact not_partial_discoveryTrace processName all verbose procs l hl
      · exact not_partial_deliveryTrace h processName 0 _ l hl
    by_cases h0 : selectedPIDs processName all procs = []
    · rw [if_pos h0] at hl
      exact not_partial_discoveryTrace processName all verbose procs line hl
    · rw [if_neg h0] at hl
      by_cases h1 : successes h (selectedPIDs processName all procs) = 0
      · rw [if_pos h1] at hl
        exact hbase line hl
      · rw [if_neg h1] at hl
        by_cases h2 : all = true ∧ successes h (selectedPIDs processName all procs)
            < (selectedPIDs processName all procs).length
        · exfalso
          apply hnot
          refine ⟨h2.1, by omega, ?_⟩
          rw [← hlen h2.1]
          exact h2.2
        · rw [if_neg h2] at hl
          exact hbase line hl

/-- Fan-out over the two `exporter` processes when the signal is refused for the first: the
run succeeds and ends with the partial warning. -/
theorem doSIGHUP_success_iff_witness :
    (doSIGHUP partialHost "exporter" true false).err = none ∧
      (doSIGHUP partialHost "exporter" true false).trace.getLast? =
        some (Event.log "Warning: Only sent signal to 1 out of 2 processes") :=
  (doSIGHUP_success_iff partialHost "exporter" true false _ rfl).2.1 rfl
    (by decide) (by decide)

/-- **C6.** When the match set of a run is not empty and every delivery of the run fails,
`doSIGHUP` returns the error `failed to send signal to any process: ` followed by the failure
recorded for the last process of the match set: `failed to find process <pid>: <cause>` when
its handle lookup failed, `failed to send SIGHUP to PID <pid>: <cause>` when its signal send
failed, with `<pid>` the identifier of that last process. -/
theorem doSIGHUP_all_fail (h : Host) (processName : String) (all verbose : Bool)
    (hne : (doSIGHUP h processName all verbose).foundPIDs ≠ [])
    (hfail : ∀ x ∈ (doSIGHUP h processName all verbose).foundPIDs.enum,
      ¬ (h.findProcess x.1 x.2 = none ∧ h.signal x.1 x.2 = none)) :
    ∃ pid, (doSIGHUP h processName all verbose).foundPIDs.getLast? = some pid ∧
      ((∃ e, h.findProcess ((doSIGHUP h processName all verbose).foundPIDs.length - 1) pid
            = some e ∧
          (doSIGHUP h processName all verbose).err
            = some ("failed to send signal to any process: "
                ++ ("failed to find process " ++ toString pid ++ ": " ++ e))) ∨
        (h.findProcess ((doSIGHUP h processName all verbose).foundPIDs.length - 1) pid = none ∧
          ∃ e, h.signal ((doSIGHUP h processName all verbose).foundPIDs.length - 1) pid
              = some e ∧
            (doSIGHUP h processName all verbose).err
              = some ("failed to send signal to any process: "
                  ++ ("failed to send SIGHUP to PID " ++ toString pid ++ ": " ++ e)))) := by
  cases hlist : h.processes with
  | error e => exact absurd (by simp [doSIGHUP, hlist]) hne
  | ok procs =>
    rw [foundPIDs_doSIGHUP h processName all verbose procs hlist] at hne hfail ⊢
    have hk := (successes_eq_zero_iff h _).2 hfail
    rw [doSIGHUP_eq h processName all verbose procs hlist, if_neg hne, if_pos hk]
    rcases List.eq_nil_or_concat (selectedPIDs processName all procs) with h0 | ⟨init, pid, hc⟩
    · exact absurd h0 hne
    · rw [List.concat_eq_append] at hc
      rw [hc] at hfail ⊢
      have hlast := hfail (init.length, pid) (by simp [List.enum_append, List.enumFrom_singleton])
      have hle := deliver_lastErr_snoc h processName 0 init pid
        { successCount := 0, lastErr := none, trace := [] }
      rw [Nat.zero_add] at hle
      refine ⟨pid, List.getLast?_concat init, ?_⟩
      simp only [List.length_append, List.length_singleton, Nat.add_sub_cancel, hle]
      simp only [failure] at hlast ⊢
      cases hfp : h.findProcess init.length pid with
      | some e => exact Or.inl ⟨e, rfl, by simp [hfp, fmtErr]⟩
      | none =>
        cases hsg : h.signal init.length pid with
        | some e => exact Or.inr ⟨rfl, e, rfl, by simp [hfp, hsg, fmtErr]⟩
        | none => exact absurd ⟨hfp, hsg⟩ hlast

/-- Fan-out over the two `exporter` processes when the lookup fails for the first and the
signal is refused for the second: the error reports the second, last, failure. -/
theorem doSIGHUP_all_fail_witness :
    (doSIGHUP failingHost "exporter" true false).err =
      some ("failed to send signal to any process: "
        ++ "failed to send SIGHUP to PID 13: operation not permitted") := by
  obtain ⟨pid, hl, hor⟩ :=
    doSIGHUP_all_fail failingHost "exporter" true false (by decide) (by decide)
  have h13 : (doSIGHUP failingHost "exporter" true false).foundPIDs.getLast? = some 13 := by
    decide
  have hp : pid = 13 := (Option.some.inj (h13.symm.trans hl)).symm
  subst hp
  rcases hor with ⟨e, he, -⟩ | ⟨-, e, he, herr⟩
  · simp [failingHost, sampleHost] at he
  · have he2 : e = "operation not permitted" := by
      simp [failingHost] at he
      exact he.symm
    rw [herr, he2]
    decide

/-! ## The HTTP handler: the claims -/

theorem utf8ByteSize_pos_iff (b : String) : b.utf8ByteSize > 0 ↔ b ≠ "" := by
  obtain ⟨l⟩ := b
  cases l with
  | nil => simp [String.utf8ByteSize, String.utf8ByteSize.go]
  | cons c l =>
    have hc := Char.utf8Size_pos c
    have hne : (String.mk (c :: l)) ≠ "" := by
      intro hcontra
      have hd := congrArg String.data hcontra
      simp at hd
    simp only [String.utf8ByteSize, String.utf8ByteSize.go, gt_iff_lt, ne_eq, hne,
      not_false_eq_true, iff_true]
    omega

/-- The trace of a run that received a response whose body was read. -/
theorem doHTTPRequest_trace (net : Net) (url method body : String) (timeout : Int)
    (verbose : Bool) (resp : Response) (b : String)
    (hreq : net.newRequest method url = none)
    (hresp : net.roundTrip method url timeout = .ok resp) (hbody : resp.body = .ok b) :
    (doHTTPRequest net url method body timeout verbose).trace =
      (if verbose then [Event.log ("Sending " ++ method ++ " request to " ++ url)] else [])
        ++ [Event.httpDo method url]
        ++ (if verbose = true ∧ b ≠ "" then [Event.log ("Response body: " ++ b)] else [])
        ++ (if 200 ≤ resp.statusCode ∧ resp.statusCode < 300 then
            [Event.log ("Successfully poked " ++ url ++ " (status: "
              ++ toString resp.statusCode ++ ")")]
          else []) := by
  unfold doHTTPRequest
  simp only [hreq, hresp, hbody, utf8ByteSize_pos_iff, ge_iff_le]
  split_ifs <;> simp

/-- **C7, amended.** For every valid URL whose response has a status code `s` with
`200 ≤ s < 300` and whose body is read without error, `doHTTPRequest` returns no error and
its last log line is `Successfully poked <url> (status: <s>)`. -/
theorem doHTTPRequest_success (net : Net) (url method body : String) (timeout : Int)
    (verbose : Bool) (resp : Response) (b : String)
    (hreq : net.newRequest method url = none)
    (hresp : net.roundTrip method url timeout = .ok resp) (hbody : resp.body = .ok b)
    (hs : 200 ≤ resp.statusCode ∧ resp.statusCode < 300) :
    (doHTTPRequest net url method body timeout verbose).err = none ∧
      (doHTTPRequest net url method body timeout verbose).trace.getLast? =
        some (Event.log ("Successfully poked " ++ url ++ " (status: "
          ++ toString resp.statusCode ++ ")")) := by
  refine ⟨?_, ?_⟩
  · unfold doHTTPRequest
    simp only [hreq, hresp, hbody, ge_iff_le, hs, and_self, if_true]
  · rw [doHTTPRequest_trace net url method body timeout verbose resp b hreq hresp hbody,
      if_pos hs, List.getLast?_concat]

/-- Scenario A of the specification: a local server answers 200. -/
theorem doHTTPRequest_success_witness :
    (doHTTPRequest (sampleNet 200 (.ok "OK")) "http://localhost:8080/reload" "POST" "" 30
        false).err = none ∧
      (doHTTPRequest (sampleNet 200 (.ok "OK")) "http://localhost:8080/reload" "POST" "" 30
        false).trace.getLast? =
        some (Event.log "Successfully poked http://localhost:8080/reload (status: 200)") :=
  doHTTPRequest_success (sampleNet 200 (.ok "OK")) "http://localhost:8080/reload" "POST" "" 30
    false { statusCode := 200, body := .ok "OK" } "OK" rfl rfl rfl (by decide)

/-- **C7 as stated fails.** A valid URL is answered with status 200, but reading the body
fails: `doHTTPRequest` returns the read error and logs no success line. -/
theorem doHTTPRequest_2xx_read_failure :
    (sampleNet 200 (.error "unexpected EOF")).newRequest "POST" "http://localhost:8080/reload"
        = none ∧
      (sampleNet 200 (.error "unexpected EOF")).roundTrip "POST" "http://localhost:8080/reload"
        30 = .ok { statusCode := 200, body := .error "unexpected EOF" } ∧
      (doHTTPRequest (sampleNet 200 (.error "unexpected EOF")) "http://localhost:8080/reload"
        "POST" "" 30 false).err = some "failed to read response: unexpected EOF" ∧
      logLines (doHTTPRequest (sampleNet 200 (.error "unexpected EOF"))
        "http://localhost:8080/reload" "POST" "" 30 false).trace = [] :=
  ⟨rfl, rfl, by decide, by decide⟩

/-- **C8.** For every valid URL whose response has a status code `s` outside `[200, 300)` and
whose body is read as `b`, `doHTTPRequest` returns the error
`server returned error status <s>: <b>`, and no log line of the run starts with
`Successfully poked `. -/
theorem doHTTPRequest_error_status (net : Net) (url method body : String) (timeout : Int)
    (verbose : Bool) (resp : Response) (b : String)
    (hreq : net.newRequest method url = none)
    (hresp : net.roundTrip method url timeout = .ok resp) (hbody : resp.body = .ok b)
    (hs : ¬ (200 ≤ resp.statusCode ∧ resp.statusCode < 300)) :
    (doHTTPRequest net url method body timeout verbose).err =
        some ("server returned error status " ++ toString resp.statusCode ++ ": " ++ b) ∧
      ∀ line ∈ logLines (doHTTPRequest net url method body timeout verbose).trace,
        ¬ "Successfully poked ".data <+: line.data := by
  refine ⟨?_, ?_⟩
  · unfold doHTTPRequest
    simp only [hreq, hresp, hbody, ge_iff_le, hs, if_false]
  · rw [doHTTPRequest_trace net url method body timeout verbose resp b hreq hresp hbody,
      if_neg hs]
    intro line hl
    rw [← List.isPrefixOf_iff_prefix]
    cases verbose
    · simp [logLines] at hl
    · by_cases hb : b = ""
      · simp [hb, logLines] at hl
        subst hl
        simp [String.data_append, List.isPrefixOf]
      · simp [hb, logLines] at hl
        rcases hl with rfl | rfl <;> simp [String.data_append, List.isPrefixOf]

/-- A server answers 503 with a body. -/
theorem doHTTPRequest_error_status_witness :
    (doHTTPRequest (sampleNet 503 (.ok "reload failed")) "http://localhost:8080/reload" "POST"
        "" 30 true).err = some "server returned error status 503: reload failed" :=
  (doHTTPRequest_error_status (sampleNet 503 (.ok "reload failed"))
    "http://localhost:8080/reload" "POST" "" 30 true
    { statusCode := 503, body := .ok "reload failed" } "reload failed" rfl rfl rfl
    (by decide)).1

/-- **C9, amended.** For every request that receives a response whose body is read as `b`:
when `verbose` is set the run first logs `Sending <method> request to <url>`, then sends the
request, then, when `b` is not empty, logs `Response body: <b>`, whatever the status code,
and when `b` is empty logs no line starting with `Response body: `; when `verbose` is not
set no log line of the run starts with `Sending ` or with `Response body: `. -/
theorem doHTTPRequest_verbose_lines (net : Net) (url method body : String) (timeout : Int)
    (verbose : Bool) (resp : Response) (b : String)
    (hreq : net.newRequest method url = none)
    (hresp : net.roundTrip method url timeout = .ok resp) (hbody : resp.body = .ok b) :
    (verbose = true → b ≠ "" → ∃ rest,
        (doHTTPRequest net url method body timeout verbose).trace =
          Event.log ("Sending " ++ method ++ " request to " ++ url)
            :: Event.httpDo method url :: Event.log ("Response body: " ++ b) :: rest ∧
          ∀ line ∈ logLines rest,
            ¬ "Sending ".data <+: line.data ∧ ¬ "Response body: ".data <+: line.data) ∧
      (verbose = true → b = "" → ∃ rest,
        (doHTTPRequest net url method body timeout verbose).trace =
          Event.log ("Sending " ++ method ++ " request to " ++ url)
            :: Event.httpDo method url :: rest ∧
          ∀ line ∈ logLines rest,
            ¬ "Sending ".data <+: line.data ∧ ¬ "Response body: ".data <+: line.data) ∧
      (verbose = false →
        ∀ line ∈ logLines (doHTTPRequest net url method body timeout verbose).trace,
          ¬ "Sending ".data <+: line.data ∧ ¬ "Response body: ".data <+: line.data) := by
  have hrest : ∀ line ∈ logLines
      (if 200 ≤ resp.statusCode ∧ resp.statusCode < 300 then
        [Event.log ("Successfully poked " ++ url ++ " (status: "
          ++ toString resp.statusCode ++ ")")]
      else []),
      ¬ "Sending ".data <+: line.data ∧ ¬ "Response body: ".data <+: line.data := by
    intro line hl
    rw [← List.isPrefixOf_iff_prefix, ← List.isPrefixOf_iff_prefix]
    split_ifs at hl
    · simp only [logLines, List.mem_singleton] at hl
      subst hl
      simp [String.data_append, List.isPrefixOf]
    · simp [logLines] at hl
  rw [doHTTPRequest_trace net url method body timeout verbose resp b hreq hresp hbody]
  refine ⟨?_, ?_, ?_⟩
  · rintro rfl hb
    exact ⟨_, by simp [hb], hrest⟩
  · rintro rfl hb
    exact ⟨_, by simp [hb], hrest⟩
  · rintro rfl
    simpa [logLines] using hrest

/-- A verbose run against a server answering 500 with a body: the body is logged although the
status is an error. -/
theorem doHTTPRequest_verbose_lines_witness :
    ∃ rest,
      (doHTTPRequest (sampleNet 500 (.ok "boom")) "http://localhost:8080/reload" "POST" "" 30
        true).trace =
        Event.log "Sending POST request to http://localhost:8080/reload"
          :: Event.httpDo "POST" "http://localhost:8080/reload"
          :: Event.log "Response body: boom" :: rest :=
  let ⟨rest, hr, _⟩ := (doHTTPRequest_verbose_lines (sampleNet 500 (.ok "boom"))
    "http://localhost:8080/reload" "POST" "" 30 true { statusCode := 500, body := .ok "boom" }
    "boom" rfl rfl rfl).1 rfl (by decide)
  ⟨rest, hr⟩

/-- **C9 as stated fails.** A verbose run receives a response with an empty body, read without
error: the log holds the `Sending` line and the success line, and no `Response body: `
line. -/
theorem doHTTPRequest_verbose_empty_body :
    (sampleNet 204 (.ok "")).roundTrip "POST" "http://localhost:8080/reload" 30
        = .ok { statusCode := 204, body := .ok "" } ∧
      logLines (doHTTPRequest (sampleNet 204 (.ok "")) "http://localhost:8080/reload" "POST" ""
        30 true).trace =
        ["Sending POST request to http://localhost:8080/reload",
          "Successfully poked http://localhost:8080/reload (status: 204)"] ∧
      Event.log ("Response body: " ++ "") ∉
        (doHTTPRequest (sampleNet 204 (.ok "")) "http://localhost:8080/reload" "POST" ""
          30 true).trace :=
  ⟨rfl, by decide, by decide⟩

end Pokego
